import Mathlib

/-!
Shallow embedding of `main.py` of the `tenthousand` habit-tracking CLI.

The program keeps one append-only CSV file per task under a year-scoped
directory.  Each file starts with a fixed header row `timestamp,count`;
every later row is one logged entry.  `Task.new` creates the file (or
loads it when present), `Task.add` appends one entry under an advisory
file lock, `Task.load` reads the file back, and `progress` computes
calendar statistics for the current UTC year.

Modelling choices, all taken from the source:
* a CSV row is either the header or an entry `(timestamp, count)`;
  timestamps are integers (epoch seconds) because
  `datetime.fromisoformat (t.isoformat())` round-trips the instant, so
  the string form carries no extra information relevant to the claims;
* the task store directory is an association list from task name (the
  `.csv` stem) to the file's rows; `open(..., "w")` truncates or creates,
  `open(..., "a")` appends and creates the file when missing, exactly as
  the corresponding Python modes do;
* `difflib.get_close_matches` and the `SequenceMatcher` ratio it uses are
  embedded following the CPython implementation (no junk heuristic fires:
  the autojunk rule needs a second sequence of at least 200 characters,
  far beyond any task name here, so the dp loop alone decides the longest
  match and the junk-extension loops are no-ops);
* float ratios are modelled as exact rationals: every comparison the
  program makes is between rationals with tiny denominators, orders of
  magnitude away from the rounding error of IEEE doubles, so the
  comparisons agree;
* Python `//` and `timedelta.days` floor their quotient (`Int.fdiv`);
  `int()` applied to a nonnegative value truncates toward zero
  (`Int.tdiv` of numerator by denominator).
-/

namespace TenThousand

/-- One CSV row of a task file: either the fixed header row written by
`Task.new` (`writer.writerow(["timestamp", "count"])`) or one entry row
`(timestamp, count)` written by `Task.add`. -/
inductive Row where
  | header : Row
  | entry (timestamp : Int) (count : Int) : Row
deriving DecidableEq, Repr

/-- The year-scoped task store directory `cfg.taskstore`: an association
list from task name (the stem of the `.csv` file) to the rows of that
file. -/
abbrev FS := List (String × List Row)

/-- Content of `name.csv`, or `none` when the file does not exist
(`task_file.exists()` is `isSome` of this). -/
def fsLookup (fs : FS) (name : String) : Option (List Row) :=
  match fs with
  | [] => none
  | (n, rows) :: rest => if n = name then some rows else fsLookup rest name

/-- Effect of `open(task_file, "w")` followed by writing `rows`: the file
is created or truncated, so afterwards it holds exactly `rows`. -/
def fsWrite (fs : FS) (name : String) (rows : List Row) : FS :=
  match fs with
  | [] => [(name, rows)]
  | (n, r) :: rest =>
    if n = name then (n, rows) :: rest else (n, r) :: fsWrite rest name rows

/-- Effect of `open(task_file, "a")` followed by writing one row: the row
is appended to the existing content, and the file is created when it is
missing (Python append mode creates the file). -/
def fsAppendRow (fs : FS) (name : String) (row : Row) : FS :=
  match fs with
  | [] => [(name, [row])]
  | (n, r) :: rest =>
    if n = name then (n, r ++ [row]) :: rest else (n, r) :: fsAppendRow rest name row

/-- Stems of `cfg.taskstore.glob("*.csv")`: the names of the existing
task files. -/
def fsStems (fs : FS) : List String := fs.map Prod.fst

/-- Decodes one row the way `Task.load` does per CSV record:
`(datetime.fromisoformat(row["timestamp"]), int(row["count"]))`. -/
def rowEntry : Row → Option (Int × Int)
  | .header => none
  | .entry ts c => some (ts, c)

/-- Behaviour of `csv.DictReader` over the file: the first row is
consumed as the field-name header and each later row is yielded as one
record, which `Task.load` decodes into an entry. -/
def csvDictRead (rows : List Row) : List (Int × Int) :=
  match rows with
  | [] => []
  | _ :: rest => rest.filterMap rowEntry

/-- In-memory task object: `Task(name, data)` with `data` the list of
`(timestamp, count)` pairs. -/
structure Task where
  name : String
  data : List (Int × Int)
deriving DecidableEq, Repr

/-- Payload of `TaskNotFoundError`: the requested task name and the
fuzzy-matched suggestions (the Python attribute `matches`; that word is
reserved in Lean, hence `matchList`). -/
structure TaskNotFoundError where
  task : String
  matchList : List String
deriving DecidableEq, Repr

/-! Embedding of `difflib.SequenceMatcher` / `difflib.get_close_matches`
(CPython implementation), specialised to the no-junk case: the autojunk
heuristic only marks characters when the second sequence has at least 200
elements, which never happens for task names, so `b2j` holds every
position of every character of `b` and the junk-extension loops after the
dp in `find_longest_match` cannot extend a maximal match. -/

/-- Ascending positions of character `c` in `b`: the entry `b2j[c]` of
`SequenceMatcher.set_seq2`. -/
def charPositions (b : List Char) (c : Char) : List Nat :=
  (b.enum.filter (fun p => p.2 == c)).map Prod.fst

/-- One iteration of the inner `for j in b2j[a[i]]` loop of
`find_longest_match`.  The accumulator carries `newj2len` plus the best
triple `(besti, bestj, bestsize)`; `j2len` is the map from the previous
`i` iteration, read at `j - 1` with default `0`. -/
def flmInner (j2len : List Nat) (i : Nat)
    (acc : List Nat × (Nat × Nat × Nat)) (j : Nat) :
    List Nat × (Nat × Nat × Nat) :=
  let best := acc.2
  let k := (if j = 0 then 0 else j2len.getD (j - 1) 0) + 1
  let newj2len := acc.1.set j k
  if k > best.2.2 then (newj2len, (i + 1 - k, j + 1 - k, k)) else (newj2len, best)

/-- One iteration of the outer `for i in range(alo, ahi)` loop of
`find_longest_match`: the js run ascending over the positions of `a[i]`
in `b` restricted to `[blo, bhi)` (the `continue` / `break` tests), and
`newj2len` starts empty (all zeros). -/
def flmRow (a b : List Char) (blo bhi : Nat)
    (st : List Nat × (Nat × Nat × Nat)) (i : Nat) :
    List Nat × (Nat × Nat × Nat) :=
  let js := (charPositions b (a.getD i 'a')).filter
    (fun j => decide (blo ≤ j) && decide (j < bhi))
  js.foldl (flmInner st.1 i) (List.replicate b.length 0, st.2)

/-- The `find_longest_match(alo, ahi, blo, bhi)` dp of `SequenceMatcher`
with empty junk sets: returns `(besti, bestj, bestsize)`, initialised to
`(alo, blo, 0)`; ties keep the earliest `(i, j)` because only a strictly
larger `k` replaces the best triple. -/
def findLongestMatch (a b : List Char) (alo ahi blo bhi : Nat) : Nat × Nat × Nat :=
  ((List.range' alo (ahi - alo)).foldl (flmRow a b blo bhi)
    (List.replicate b.length 0, (alo, blo, 0))).2

/-- Total size of the matching blocks of `get_matching_blocks`, computed
by the same divide and conquer: take the longest match of the current
range, then recurse left and right of it.  `fuel` only bounds the
recursion depth; `a.length + b.length + 1` is always enough because each
recursive call strictly shrinks `(ahi - alo) + (bhi - blo)`. -/
def matchingSize (a b : List Char) : Nat → Nat → Nat → Nat → Nat → Nat
  | 0, _, _, _, _ => 0
  | fuel + 1, alo, ahi, blo, bhi =>
    let m := findLongestMatch a b alo ahi blo bhi
    let i := m.1
    let j := m.2.1
    let k := m.2.2
    if k = 0 then 0
    else
      k + (if alo < i && blo < j then matchingSize a b fuel alo i blo j else 0)
        + (if i + k < ahi && j + k < bhi then matchingSize a b fuel (i + k) ahi (j + k) bhi
           else 0)

/-- The helper `_calculate_ratio(matches, length)` of difflib:
`2.0 * matches / length` when `length` is nonzero, else `1.0`. -/
def calculateRatio (ms len : Nat) : ℚ :=
  if len > 0 then 2 * (ms : ℚ) / (len : ℚ) else 1

/-- The full `SequenceMatcher(None, a, b).ratio()`. -/
def seqRatio (a b : List Char) : ℚ :=
  calculateRatio (matchingSize a b (a.length + b.length + 1) 0 a.length 0 b.length)
    (a.length + b.length)

/-- Number of occurrences of `c` in `l`. -/
def countOcc (l : List Char) (c : Char) : Nat := (l.filter (fun x => x == c)).length

/-- The `quick_ratio()` upper bound of `SequenceMatcher`: counts, over
every character, how many of its occurrences the two sequences share. -/
def quickRatio (a b : List Char) : ℚ :=
  calculateRatio (((a ++ b).dedup.map (fun c => min (countOcc a c) (countOcc b c))).sum)
    (a.length + b.length)

/-- The `real_quick_ratio()` upper bound of `SequenceMatcher`. -/
def realQuickRatio (a b : List Char) : ℚ :=
  calculateRatio (min a.length b.length) (a.length + b.length)

/-- Descending comparison on the `(ratio, name)` pairs that
`get_close_matches` hands to `heapq.nlargest`: Python compares the
tuples lexicographically, ratio first and string second. -/
def pairGe (p q : ℚ × String) : Bool :=
  if p.1 = q.1 then !(decide (p.2 < q.2)) else decide (q.1 < p.1)

/-- Insertion into a descending-sorted list, keeping equal keys stable. -/
def insertDesc (p : ℚ × String) : List (ℚ × String) → List (ℚ × String)
  | [] => [p]
  | q :: rest => if pairGe p q then p :: q :: rest else q :: insertDesc p rest

/-- Stable descending sort; `heapq.nlargest(n, xs)` on distinct tuples is
`sorted(xs, reverse=True)[:n]`. -/
def sortPairsDesc : List (ℚ × String) → List (ℚ × String)
  | [] => []
  | p :: rest => insertDesc p (sortPairsDesc rest)

/-- The full `difflib.get_close_matches(word, possibilities, n, cutoff)`:
keep the possibilities whose three ratios all reach the cutoff, then
return the `n` highest-ratio ones, best first. -/
def getCloseMatches (word : String) (possibilities : List String) (n : Nat)
    (cutoff : ℚ) : List String :=
  let scored := possibilities.filterMap (fun x =>
    let a := x.toList
    let b := word.toList
    if realQuickRatio a b ≥ cutoff ∧ quickRatio a b ≥ cutoff ∧ seqRatio a b ≥ cutoff then
      some (seqRatio a b, x)
    else none)
  ((sortPairsDesc scored).take n).map Prod.snd

/-! Event store operations of class `Task`. -/

/-- The static method `Task.exists(cfg, name)`:
`(cfg.taskstore / f"{name}.csv").exists()`. -/
def Task.exists (fs : FS) (name : String) : Bool := (fsLookup fs name).isSome

/-- The class method `Task.load(cfg, name)`: when the file is absent it
raises `TaskNotFoundError(name, difflib.get_close_matches(name,
existing_tasks, n=3, cutoff=0.6))`; otherwise it reads every row through
`csv.DictReader` and returns `Task(name, data)`. -/
def Task.load (fs : FS) (name : String) : Except TaskNotFoundError Task :=
  match fsLookup fs name with
  | none => .error ⟨name, getCloseMatches name (fsStems fs) 3 (6 / 10)⟩
  | some rows => .ok ⟨name, csvDictRead rows⟩

/-- Existence check of `Task.new`, performed BEFORE the lock is taken
(`if cls.exists(cfg, name): return cls.load(cfg, name)`). -/
def newCheck (fs : FS) (name : String) : Bool := Task.exists fs name

/-- Body of the locked section of `Task.new`: `with locked(task_file,
"w") as fd: writer.writerow(["timestamp", "count"])` — the file is opened
in truncating `"w"` mode and the header row is written.  No existence
re-check occurs between acquiring the lock and this truncating write. -/
def newCreateLocked (fs : FS) (name : String) : FS := fsWrite fs name [Row.header]

/-- The class method `Task.new(cfg, name)`: load when the pre-lock check
sees the file, otherwise create it under the lock and return an empty
task.  The `.error` branch is unreachable: `Task.load` only fails when
the file is absent, and it is called here only when the check saw it. -/
def Task.new (fs : FS) (name : String) : Task × FS :=
  if newCheck fs name then
    match Task.load fs name with
    | .ok t => (t, fs)
    | .error _ => (⟨name, []⟩, fs)
  else (⟨name, []⟩, newCreateLocked fs name)

/-- The method `Task.add(self, cfg, count)`: appends one row
`[timestamp, count]` to the task's file under the lock.  The method
writes only to the file; the `self` object is returned unchanged because
the source assigns to none of its fields.  The timestamp parameter stands
for `datetime.datetime.now(tz=datetime.timezone.utc)`. -/
def Task.add (t : Task) (fs : FS) (count : Int) (timestamp : Int) : Task × FS :=
  (t, fsAppendRow fs t.name (Row.entry timestamp count))

/-- The aggregate computed by `progress`:
`total = sum(count for _, count in task_obj.data)`. -/
def Task.total (t : Task) : Int := (t.data.map Prod.snd).sum

/-- One invocation of the CLI `add` command after config loading and
confirmation: `task_obj = Task.new(cfg, task); task_obj.add(cfg, count)`.
Returns the resulting file system. -/
def addInvocation (fs : FS) (name : String) (count ts : Int) : FS :=
  let p := Task.new fs name
  (Task.add p.1 p.2 count ts).2

/-- A whole history of `add` invocations (each possibly from a fresh
process: every invocation re-reads the store from disk, so process
restarts leave no other state).  Each list element is `(count,
timestamp)`. -/
def applyAdds (fs : FS) (name : String) (adds : List (Int × Int)) : FS :=
  adds.foldl (fun s p => addInvocation s name p.1 p.2) fs

/-! Calendar arithmetic of `progress`.  A UTC instant inside a year is a
month, a day of month and a number of seconds since midnight; Python
`datetime` subtraction yields a `timedelta` whose `.days` is the floor of
its total seconds divided by 86400 (`Int.fdiv`). -/

/-- The proleptic-Gregorian leap-year rule used by `datetime`. -/
def isLeap (y : Int) : Bool := (y % 4 == 0 && y % 100 != 0) || y % 400 == 0

/-- Length of month `m` (1-based), CPython's `_DAYS_IN_MONTH` plus the
February leap adjustment. -/
def daysInMonth (leap : Bool) (m : Nat) : Nat :=
  if m = 2 then (if leap then 29 else 28)
  else if m = 4 ∨ m = 6 ∨ m = 9 ∨ m = 11 then 30 else 31

/-- Days in the year strictly before month `m` (1-based), CPython's
`_days_before_month`. -/
def daysBeforeMonth (leap : Bool) (m : Nat) : Nat :=
  (match m with
   | 1 => 0 | 2 => 31 | 3 => 59 | 4 => 90 | 5 => 120 | 6 => 151
   | 7 => 181 | 8 => 212 | 9 => 243 | 10 => 273 | 11 => 304 | _ => 334)
  + (if 2 < m ∧ leap then 1 else 0)

/-- A UTC instant within a calendar year, at second granularity (finer
granularity changes none of the floor computations below). -/
structure Instant where
  year : Int
  month : Nat
  day : Nat
  sec : Nat
deriving DecidableEq, Repr

/-- Zero-based ordinal of the instant's date within its year. -/
def dayOfYearIdx (y : Int) (m d : Nat) : Nat :=
  daysBeforeMonth (isLeap y) m + (d - 1)

/-- Seconds from `year_start = datetime(now.year, 1, 1, tzinfo=utc)` to
the instant. -/
def secondsFromYearStart (t : Instant) : Int :=
  (dayOfYearIdx t.year t.month t.day : Int) * 86400 + t.sec

/-- Seconds from `year_start` to
`year_end = datetime(now.year, 12, 31, tzinfo=utc)` — midnight of
Dec 31, not the end of that day. -/
def yearEndSeconds (y : Int) : Int := (dayOfYearIdx y 12 31 : Int) * 86400

/-- `days_elapsed = (now - year_start).days`. -/
def daysElapsed (now : Instant) : Int :=
  Int.fdiv (secondsFromYearStart now) 86400

/-- `days_remaining = (year_end - now).days + 1  # Include today`. -/
def daysRemaining (now : Instant) : Int :=
  Int.fdiv (yearEndSeconds now.year - secondsFromYearStart now) 86400 + 1

/-- `days_in_year = (year_end - year_start).days + 1`. -/
def daysInYear (y : Int) : Int :=
  Int.fdiv (yearEndSeconds y - 0) 86400 + 1

/-- Python `int()` applied to a nonnegative real value: truncation toward
zero of the exact rational. -/
def pyInt (q : ℚ) : Int := Int.tdiv q.num q.den

/-- `expected = int((days_elapsed / days_in_year) * 10000)`. -/
def expected (now : Instant) : Int :=
  pyInt (((daysElapsed now : ℚ) / (daysInYear now.year : ℚ)) * 10000)

/-- Result of the daily-rate computation: a finite rational or the
`float("inf")` sentinel. -/
inductive DailyRate where
  | finite (q : ℚ)
  | inf
deriving DecidableEq, Repr

/-- `daily_needed = (10000 - total) / days_remaining if days_remaining >
0 else float("inf")`. -/
def dailyNeeded (total daysRem : Int) : DailyRate :=
  if daysRem > 0 then .finite ((10000 - (total : ℚ)) / (daysRem : ℚ)) else .inf

/-! Model of the `locked` context manager.  Its body is
`touch`, `open(lock_file)`, `flock(LOCK_EX)`, `try: open(filepath, mode);
yield` and `finally: flock(LOCK_UN); lock_file.unlink()`.  Python runs
the `finally` block both when the `with` body completes and when it
raises, so the trace of lock events is the same on either path. -/

/-- Observable events of one use of `locked`. -/
inductive LockEv where
  | touch
  | acquire
  | openState
  | bodyRun (ok : Bool)
  | release
  | unlink
deriving DecidableEq, Repr

/-- Event trace of one use of the `locked` context manager; `ok = false`
is the path where the body raises an exception, in which case the
`finally` block still runs `release` and `unlink` before the exception
propagates to the caller. -/
def lockedTrace (ok : Bool) : List LockEv :=
  [.touch, .acquire, .openState, .bodyRun ok, .release, .unlink]

/-- State of the advisory lock on the marker file, as held by this
process. -/
inductive LockState where
  | unlocked
  | locked
deriving DecidableEq, Repr

/-- Effect of one event on the lock state. -/
def stepLock (s : LockState) : LockEv → LockState
  | .acquire => .locked
  | .release => .unlocked
  | _ => s

/-- Lock state after running a list of events. -/
def runLock (s : LockState) (evs : List LockEv) : LockState := evs.foldl stepLock s

/-! Helper lemmas about the store operations. -/

lemma fsLookup_fsWrite_self (fs : FS) (name : String) (rows : List Row) :
    fsLookup (fsWrite fs name rows) name = some rows := by
  induction fs with
  | nil => simp [fsWrite, fsLookup]
  | cons hd tl ih =>
    obtain ⟨n, r⟩ := hd
    by_cases h : n = name <;> simp [fsWrite, fsLookup, h, ih]

lemma fsLookup_fsAppendRow_self (fs : FS) (name : String) (row : Row) :
    fsLookup (fsAppendRow fs name row) name
      = some ((fsLookup fs name).getD [] ++ [row]) := by
  induction fs with
  | nil => simp [fsAppendRow, fsLookup]
  | cons hd tl ih =>
    obtain ⟨n, r⟩ := hd
    by_cases h : n = name <;> simp [fsAppendRow, fsLookup, h, ih]

lemma fsLookup_fsAppendRow_other (fs : FS) (name other : String) (row : Row)
    (h : other ≠ name) :
    fsLookup (fsAppendRow fs name row) other = fsLookup fs other := by
  have h' : name ≠ other := fun hx => h hx.symm
  induction fs with
  | nil => simp [fsAppendRow, fsLookup, h']
  | cons hd tl ih =>
    obtain ⟨n, r⟩ := hd
    by_cases hn : n = name
    · subst hn
      simp [fsAppendRow, fsLookup, h']
    · simp [fsAppendRow, fsLookup, hn, ih]

lemma Task.new_name (fs : FS) (name : String) : ((Task.new fs name).1).name = name := by
  rw [Task.new]
  by_cases h : newCheck fs name
  · rw [if_pos h]
    rcases hload : Task.load fs name with e | t
    · simp
    · rw [Task.load] at hload
      rcases hlook : fsLookup fs name with _ | rows <;> rw [hlook] at hload
      · cases hload
      · cases hload
        simp
  · rw [if_neg h]

lemma Task.new_of_lookup_some (fs : FS) (name : String) (rows : List Row)
    (h : fsLookup fs name = some rows) :
    Task.new fs name = (⟨name, csvDictRead rows⟩, fs) := by
  rw [Task.new, newCheck, Task.exists, h]
  simp [Task.load, h]

lemma Task.new_of_lookup_none (fs : FS) (name : String)
    (h : fsLookup fs name = none) :
    Task.new fs name = (⟨name, []⟩, fsWrite fs name [Row.header]) := by
  rw [Task.new, newCheck, Task.exists, h]
  simp [newCreateLocked]

/-! C9 — the `locked` context manager releases the exclusive lock on
every exit path. -/

/-- C9: for either body outcome (normal completion `ok = true` or an
exception `ok = false`) and any prior lock state, the lock is in state
`locked` while the body runs (after the first three events) and in state
`unlocked` once the context manager returns control: the `finally` block
releases the lock on every exit path. -/
theorem C9_lock_released_on_every_path (ok : Bool) (s : LockState) :
    runLock s ((lockedTrace ok).take 4) = .locked ∧
    runLock s (lockedTrace ok) = .unlocked :=
  ⟨rfl, rfl⟩

/-! C10 — `Task.add` is pure on the in-memory task object. -/

/-- C10: `task.add(cfg, count)` leaves the in-memory `Task` (hence its
total) unchanged; the new entry is appended only to the on-disk file of
`task.name`, and every other file is untouched. -/
theorem C10_add_does_not_mutate_task (t : Task) (fs : FS) (c ts : Int) :
    (Task.add t fs c ts).1 = t ∧
    Task.total (Task.add t fs c ts).1 = Task.total t ∧
    fsLookup (Task.add t fs c ts).2 t.name
      = some ((fsLookup fs t.name).getD [] ++ [Row.entry ts c]) ∧
    (∀ other, other ≠ t.name →
      fsLookup (Task.add t fs c ts).2 other = fsLookup fs other) := by
  refine ⟨rfl, rfl, ?_, ?_⟩
  · exact fsLookup_fsAppendRow_self fs t.name (Row.entry ts c)
  · intro other h
    exact fsLookup_fsAppendRow_other fs t.name other (Row.entry ts c) h

/-- Witness for C10 at concrete inputs, with the frame condition
instantiated at the unrelated task `"b"`. -/
theorem C10_add_does_not_mutate_task_witness :
    (Task.add ⟨"a", []⟩ [("a", [Row.header]), ("b", [])] 5 100).1 = ⟨"a", []⟩ ∧
    Task.total (Task.add ⟨"a", []⟩ [("a", [Row.header]), ("b", [])] 5 100).1
      = Task.total ⟨"a", []⟩ ∧
    fsLookup (Task.add ⟨"a", []⟩ [("a", [Row.header]), ("b", [])] 5 100).2 "a"
      = some ((fsLookup [("a", [Row.header]), ("b", [])] "a").getD []
          ++ [Row.entry 100 5]) ∧
    fsLookup (Task.add ⟨"a", []⟩ [("a", [Row.header]), ("b", [])] 5 100).2 "b"
      = fsLookup [("a", [Row.header]), ("b", [])] "b" :=
  (fun h => ⟨h.1, h.2.1, h.2.2.1, h.2.2.2 "b" (by decide)⟩)
    (C10_add_does_not_mutate_task ⟨"a", []⟩ [("a", [Row.header]), ("b", [])] 5 100)

/-! C3 — `Task.new` is idempotent when the calls are sequential in one
process. -/

/-- C3: calling `Task.new` a second time with the same name loads the
existing file without truncating it: the returned task has the same
entries as after a single call, and the store is unchanged by the second
call. -/
theorem C3_new_idempotent (fs : FS) (name : String) :
    ((Task.new (Task.new fs name).2 name).1).data = ((Task.new fs name).1).data ∧
    (Task.new (Task.new fs name).2 name).2 = (Task.new fs name).2 := by
  rcases h : fsLookup fs name with _ | rows
  · rw [Task.new_of_lookup_none fs name h]
    rw [Task.new_of_lookup_some _ name [Row.header] (fsLookup_fsWrite_self fs name _)]
    simp [csvDictRead]
  · rw [Task.new_of_lookup_some fs name rows h]
    rw [Task.new_of_lookup_some fs name rows h]
    exact ⟨rfl, rfl⟩

/-! C1 — concurrent `Task.new`.  Two processes A and B both invoke
`Task.new(cfg, "pullups")` against an initially empty store.  Each
locked section is executed atomically here (the advisory lock grants
mutual exclusion), and the schedule below interleaves only at points
where no lock is held, so it is a legal schedule under the locking
protocol of the source:

1. A evaluates the pre-lock existence check — `false`;
2. B evaluates the pre-lock existence check — `false`;
3. A acquires the lock, truncate-writes the header, releases (the whole
   locked section of `Task.new`);
4. A appends the entry `(100, 5)` via `Task.add` (lock taken and
   released);
5. B, continuing from its stale `false` check of step 2, acquires the
   now-free lock and runs the locked section of `Task.new`: a
   truncate-write of the header with no existence re-check.

Step 5 erases A's entry. -/

/-- Shared store before the race: the task does not exist. -/
def raceFS0 : FS := []

/-- Store after step 3: A's locked header write. -/
def raceFS1 : FS := newCreateLocked raceFS0 "pullups"

/-- Store after step 4: A's append of count 5 at timestamp 100. -/
def raceFS2 : FS := (Task.add ⟨"pullups", []⟩ raceFS1 5 100).2

/-- Store after step 5: B's locked header write, driven by its stale
pre-lock check. -/
def raceFS3 : FS := newCreateLocked raceFS2 "pullups"

/-- C1 (claim refuted by the code): both pre-lock checks see the task as
missing; after A creates the file and logs count 5 the file exists with
total 5, yet B's locked section — which re-checks nothing — truncates it
back to an empty task, so the second caller destroys the first caller's
data.  The last conjunct shows what re-checking inside the lock would
have seen: running the whole of `Task.new` against the store of step 4
takes the load branch and leaves the entry intact, so only the stale
pre-lock check makes step 5 truncate. -/
theorem C1_create_race_truncates :
    newCheck raceFS0 "pullups" = false ∧
    Task.exists raceFS2 "pullups" = true ∧
    Task.load raceFS2 "pullups" = .ok ⟨"pullups", [(100, 5)]⟩ ∧
    Task.total ⟨"pullups", [(100, 5)]⟩ = 5 ∧
    Task.load raceFS3 "pullups" = .ok ⟨"pullups", []⟩ ∧
    Task.total ⟨"pullups", []⟩ = 0 ∧
    Task.new raceFS2 "pullups" = (⟨"pullups", [(100, 5)]⟩, raceFS2) := by
  refine ⟨rfl, rfl, rfl, by decide, rfl, by decide, ?_⟩
  rw [Task.new_of_lookup_some raceFS2 "pullups" [Row.header, Row.entry 100 5] rfl]
  rfl

/-! C7 — entry counts are written unvalidated. -/

/-- Store holding the freshly created task `"pullups"`. -/
def negFS0 : FS := (Task.new [] "pullups").2

/-- Store after `add(-5, "pullups")`: nothing in `Task.add` (nor in the
CLI `add` handler, whose parameter is a plain `int`) rejects a negative
count. -/
def negFS1 : FS := (Task.add ⟨"pullups", []⟩ negFS0 (-5) 100).2

/-- C7 counterexample: the add operation accepts `count = -5` and the row
appended to the CSV carries that negative count, so not every accepted
add yields a row with `count ≥ 0`. -/
theorem C7_counterexample :
    negFS1 = [("pullups", [Row.header, Row.entry 100 (-5)])] ∧
    Task.load negFS1 "pullups" = .ok ⟨"pullups", [(100, -5)]⟩ ∧
    ((-5 : Int) < 0) := by
  refine ⟨rfl, rfl, by decide⟩

/-- Decidable check that a row's count is nonnegative (vacuous for the
header row). -/
def rowCountOk : Row → Bool
  | .header => true
  | .entry _ c => decide (0 ≤ c)

/-- C7 amended: `Task.add` writes exactly the count it is given, with no
validation; consequently every row of the file has a nonnegative count
provided the caller passes a nonnegative count and the file contained
only nonnegative counts beforehand. -/
theorem C7_amended_nonneg_preserved (t : Task) (fs : FS) (c ts : Int)
    (rows : List Row) (hc : 0 ≤ c) (hrows : fsLookup fs t.name = some rows)
    (hall : rows.all rowCountOk = true) :
    fsLookup (Task.add t fs c ts).2 t.name = some (rows ++ [Row.entry ts c]) ∧
    (rows ++ [Row.entry ts c]).all rowCountOk = true := by
  constructor
  · have h := fsLookup_fsAppendRow_self fs t.name (Row.entry ts c)
    rw [hrows] at h
    exact h
  · simp only [List.all_append, hall, Bool.true_and, List.all_cons, List.all_nil,
      Bool.and_true, rowCountOk]
    exact decide_eq_true hc

/-- Witness for the amended C7 at concrete inputs. -/
theorem C7_amended_nonneg_preserved_witness :
    (0 : Int) ≤ 5 ∧
    fsLookup [("t", [Row.header])] "t" = some [Row.header] ∧
    [Row.header].all rowCountOk = true ∧
    (fsLookup (Task.add ⟨"t", []⟩ [("t", [Row.header])] 5 100).2 "t"
        = some ([Row.header] ++ [Row.entry 100 5]) ∧
      ([Row.header] ++ [Row.entry 100 5]).all rowCountOk = true) :=
  ⟨by decide, by decide, by decide,
    C7_amended_nonneg_preserved ⟨"t", []⟩ [("t", [Row.header])] 5 100 [Row.header]
      (by decide) (by decide) (by decide)⟩

/-! C2 — durability round-trip: total after reload equals the sum of the
appended counts. -/

lemma addInvocation_rows (fs : FS) (name : String) (c ts : Int) (rows : List Row)
    (h : fsLookup fs name = some rows) :
    fsLookup (addInvocation fs name c ts) name = some (rows ++ [Row.entry ts c]) := by
  rw [addInvocation, Task.new_of_lookup_some fs name rows h]
  have happ := fsLookup_fsAppendRow_self fs name (Row.entry ts c)
  rw [h] at happ
  exact happ

lemma applyAdds_rows (name : String) (adds : List (Int × Int)) :
    ∀ (fs : FS) (rows : List Row), fsLookup fs name = some rows →
      fsLookup (applyAdds fs name adds) name
        = some (rows ++ adds.map (fun p => Row.entry p.2 p.1)) := by
  induction adds with
  | nil => intro fs rows h; simpa [applyAdds] using h
  | cons hd tl ih =>
    intro fs rows h
    have hstep := addInvocation_rows fs name hd.1 hd.2 rows h
    have := ih (addInvocation fs name hd.1 hd.2) (rows ++ [Row.entry hd.2 hd.1]) hstep
    simpa [applyAdds, List.append_assoc] using this

/-- C2: starting from a store in which the task does not yet exist,
create it, then apply any sequence of `add` invocations (each invocation
re-reads the store from disk exactly as a freshly started process does).
Loading the task afterwards succeeds and its total is the sum of all
appended counts.  Each list element of `adds` is `(count, timestamp)`. -/
theorem C2_total_is_sum_of_appends (fs0 : FS) (name : String)
    (adds : List (Int × Int)) (h : Task.exists fs0 name = false) :
    Task.load (applyAdds (Task.new fs0 name).2 name adds) name
      = .ok ⟨name, adds.map (fun p => (p.2, p.1))⟩ ∧
    Task.total ⟨name, adds.map (fun p => (p.2, p.1))⟩ = (adds.map Prod.fst).sum := by
  have hnone : fsLookup fs0 name = none := by
    rw [Task.exists] at h
    rcases hx : fsLookup fs0 name with _ | r
    · rfl
    · rw [hx] at h
      simp at h
  constructor
  · rw [Task.new_of_lookup_none fs0 name hnone]
    have hrows := applyAdds_rows name adds (fsWrite fs0 name [Row.header]) [Row.header]
      (fsLookup_fsWrite_self fs0 name [Row.header])
    rw [Task.load, hrows]
    simp only [List.cons_append, List.nil_append, csvDictRead]
    congr 1
    congr 1
    simp only [rowEntry, List.filterMap_map, Function.comp_def]
    rw [show (fun (x : Int × Int) => some (x.2, x.1))
        = some ∘ (fun (p : Int × Int) => (p.2, p.1)) from rfl]
    exact congrFun (List.filterMap_eq_map _) adds
  · rw [Task.total]
    simp [List.map_map, Function.comp_def]

/-- Witness for C2: the spec's end-to-end example, `add 5 pullups` then
`add 3 pullups`, loaded back, totals 8. -/
theorem C2_total_is_sum_of_appends_witness :
    Task.exists ([] : FS) "pullups" = false ∧
    (Task.load (applyAdds (Task.new ([] : FS) "pullups").2 "pullups"
        [(5, 100), (3, 200)]) "pullups"
      = .ok ⟨"pullups", [(100, 5), (200, 3)]⟩ ∧
    Task.total ⟨"pullups", [(100, 5), (200, 3)]⟩
      = ([((5 : Int), (100 : Int)), (3, 200)].map Prod.fst).sum) :=
  ⟨by decide, C2_total_is_sum_of_appends [] "pullups" [(5, 100), (3, 200)] (by decide)⟩

/-! Calendar lemmas for the `progress` claims. -/

lemma dec31_idx (y : Int) :
    dayOfYearIdx y 12 31 = 364 + (if isLeap y then 1 else 0) := by
  cases hl : isLeap y <;> simp [dayOfYearIdx, daysBeforeMonth, hl]

lemma dayIdx_le_dec31 (y : Int) (m d : Nat) (hm1 : 1 ≤ m) (hm2 : m ≤ 12)
    (hd1 : 1 ≤ d) (hd2 : d ≤ daysInMonth (isLeap y) m) :
    dayOfYearIdx y m d ≤ dayOfYearIdx y 12 31 := by
  cases hl : isLeap y <;>
    (rw [hl] at hd2
     interval_cases m <;>
       simp [dayOfYearIdx, daysBeforeMonth, daysInMonth, hl] at hd2 ⊢ <;> omega)

lemma daysInYear_eq (y : Int) : daysInYear y = if isLeap y then 366 else 365 := by
  rw [daysInYear, yearEndSeconds, dec31_idx]
  cases hl : isLeap y <;>
    simp [hl, Int.fdiv_eq_ediv _ (by norm_num : (0:Int) ≤ 86400)]

lemma daysElapsed_eq (now : Instant) (hs : now.sec < 86400) :
    daysElapsed now = (dayOfYearIdx now.year now.month now.day : Int) := by
  rw [daysElapsed, secondsFromYearStart, Int.fdiv_eq_ediv _ (by norm_num : (0:Int) ≤ 86400)]
  omega

lemma daysRemaining_nonneg (now : Instant) (hm1 : 1 ≤ now.month)
    (hm2 : now.month ≤ 12) (hd1 : 1 ≤ now.day)
    (hd2 : now.day ≤ daysInMonth (isLeap now.year) now.month)
    (hs : now.sec < 86400) :
    0 ≤ daysRemaining now := by
  have hidx := dayIdx_le_dec31 now.year now.month now.day hm1 hm2 hd1 hd2
  rw [daysRemaining, yearEndSeconds, secondsFromYearStart,
    Int.fdiv_eq_ediv _ (by norm_num : (0:Int) ≤ 86400)]
  omega

lemma daysRemaining_dec31 (y : Int) (s : Nat) (hs : s < 86400) :
    daysRemaining ⟨y, 12, 31, s⟩ = if s = 0 then 1 else 0 := by
  have hd : daysRemaining ⟨y, 12, 31, s⟩
      = Int.fdiv ((dayOfYearIdx y 12 31 : Int) * 86400
          - ((dayOfYearIdx y 12 31 : Int) * 86400 + (s : Int))) 86400 + 1 := rfl
  rw [hd, Int.fdiv_eq_ediv _ (by norm_num : (0:Int) ≤ 86400)]
  split_ifs with h <;> omega

lemma pyInt_eq_floor (q : ℚ) (h : 0 ≤ q) : pyInt q = ⌊q⌋ := by
  rw [pyInt, Rat.floor_def]
  exact Int.tdiv_eq_ediv (Rat.num_nonneg.mpr h) (Int.natCast_nonneg _)

/-! C5 — the daily-rate computation never divides by zero. -/

/-- C5: for every total and every in-range instant, `days_remaining` is
nonnegative; when it is zero the code yields the `float("inf")` sentinel
rather than dividing, and when it is positive `daily_needed` is the
finite quotient `(10000 - total) / days_remaining` with a nonzero
divisor. -/
theorem C5_daily_rate_never_divides_by_zero (tot : Int) (now : Instant)
    (hm1 : 1 ≤ now.month) (hm2 : now.month ≤ 12) (hd1 : 1 ≤ now.day)
    (hd2 : now.day ≤ daysInMonth (isLeap now.year) now.month)
    (hs : now.sec < 86400) :
    0 ≤ daysRemaining now ∧
    (daysRemaining now = 0 → dailyNeeded tot (daysRemaining now) = .inf) ∧
    (0 < daysRemaining now →
      dailyNeeded tot (daysRemaining now)
        = .finite ((10000 - (tot : ℚ)) / ((daysRemaining now : Int) : ℚ))) := by
  refine ⟨daysRemaining_nonneg now hm1 hm2 hd1 hd2 hs, ?_, ?_⟩
  · intro h
    rw [dailyNeeded, if_neg (by omega)]
  · intro h
    rw [dailyNeeded, if_pos h]

/-- Witness for C5 at a concrete instant (June 15, 2025, 01:00 UTC),
where `days_remaining` is positive, so the finite branch applies. -/
theorem C5_daily_rate_never_divides_by_zero_witness :
    0 ≤ daysRemaining ⟨2025, 6, 15, 3600⟩ ∧
    dailyNeeded 5000 (daysRemaining ⟨2025, 6, 15, 3600⟩)
      = .finite ((10000 - ((5000 : Int) : ℚ))
          / ((daysRemaining ⟨2025, 6, 15, 3600⟩ : Int) : ℚ)) :=
  (fun h => ⟨h.1, h.2.2 (by decide)⟩)
    (C5_daily_rate_never_divides_by_zero 5000 ⟨2025, 6, 15, 3600⟩
      (by decide) (by decide) (by decide) (by decide) (by decide))

/-! C4 — behaviour on Dec 31. -/

/-- C4 counterexample: at noon UTC on Dec 31, 2025 the code computes
`days_remaining = 0`, not `1`: `year_end` is Dec 31 00:00 UTC, so
`(year_end - now).days` is `-1` for any instant of Dec 31 after
midnight. -/
theorem C4_counterexample_noon_dec31 :
    ¬ (daysRemaining ⟨2025, 12, 31, 43200⟩ = 1) ∧
    daysRemaining ⟨2025, 12, 31, 43200⟩ = 0 := by decide

/-- C4 amended: on Dec 31 the code computes `days_remaining = 1` only at
exactly 00:00:00 UTC and `0` for every later instant of that day
(`year_end` is Dec 31 midnight, not 23:59:59); the daily-rate division
still cannot divide by zero on that date, because the zero value selects
the `float("inf")` sentinel branch. -/
theorem C4_amended_dec31_days_remaining (y : Int) (s : Nat) (hs : s < 86400) :
    daysRemaining ⟨y, 12, 31, s⟩ = (if s = 0 then 1 else 0) ∧
    (∀ tot : Int, dailyNeeded tot (daysRemaining ⟨y, 12, 31, s⟩)
      = if s = 0 then .finite ((10000 - (tot : ℚ)) / 1) else .inf) := by
  have hdr := daysRemaining_dec31 y s hs
  refine ⟨hdr, ?_⟩
  intro tot
  rw [hdr]
  split_ifs with h
  · rw [dailyNeeded, if_pos (by norm_num)]
    norm_num
  · rw [dailyNeeded, if_neg (by norm_num)]

/-- Witness for the amended C4 at noon UTC on Dec 31, 2025, with the
daily-rate conjunct instantiated at total 5000. -/
theorem C4_amended_dec31_days_remaining_witness :
    daysRemaining ⟨2025, 12, 31, 43200⟩ = 0 ∧
    dailyNeeded 5000 (daysRemaining ⟨2025, 12, 31, 43200⟩) = .inf :=
  (fun h => ⟨by rw [h.1]; rfl, by rw [h.2 5000]; rfl⟩)
    (C4_amended_dec31_days_remaining 2025 43200 (by decide))

/-! C8 — the expected-progress formula. -/

/-- C8: for every in-range instant, `days_in_year` is 365 or 366
according to the leap-year rule, `days_elapsed` is the number of whole
days from Jan 1 00:00 UTC to `now`, and `expected` equals
`floor(days_elapsed / days_in_year * 10000)` — the `int()` truncation
coincides with the floor because the operand is nonnegative. -/
theorem C8_expected_is_floor (now : Instant) (hm1 : 1 ≤ now.month)
    (hm2 : now.month ≤ 12) (hd1 : 1 ≤ now.day)
    (hd2 : now.day ≤ daysInMonth (isLeap now.year) now.month)
    (hs : now.sec < 86400) :
    daysInYear now.year = (if isLeap now.year then 366 else 365) ∧
    daysElapsed now = (dayOfYearIdx now.year now.month now.day : Int) ∧
    expected now
      = ⌊((daysElapsed now : Int) : ℚ) / ((daysInYear now.year : Int) : ℚ) * 10000⌋ := by
  refine ⟨daysInYear_eq now.year, daysElapsed_eq now hs, ?_⟩
  rw [expected]
  apply pyInt_eq_floor
  have h1 : (0 : ℚ) ≤ ((daysElapsed now : Int) : ℚ) := by
    rw [daysElapsed_eq now hs]
    exact_mod_cast Int.natCast_nonneg _
  have h2 : (0 : ℚ) ≤ ((daysInYear now.year : Int) : ℚ) := by
    rw [daysInYear_eq]
    split_ifs <;> norm_num
  exact mul_nonneg (div_nonneg h1 h2) (by norm_num)

/-- Witness for C8 at a concrete instant (June 15, 2025, 01:00 UTC). -/
theorem C8_expected_is_floor_witness :
    (1 ≤ (6 : Nat) ∧ (6 : Nat) ≤ 12 ∧ 1 ≤ (15 : Nat) ∧
      (15 : Nat) ≤ daysInMonth (isLeap 2025) 6 ∧ (3600 : Nat) < 86400) ∧
    (daysInYear 2025 = (if isLeap 2025 then 366 else 365) ∧
    daysElapsed ⟨2025, 6, 15, 3600⟩ = (dayOfYearIdx 2025 6 15 : Int) ∧
    expected ⟨2025, 6, 15, 3600⟩
      = ⌊((daysElapsed ⟨2025, 6, 15, 3600⟩ : Int) : ℚ)
          / ((daysInYear 2025 : Int) : ℚ) * 10000⌋) :=
  ⟨⟨by decide, by decide, by decide, by decide, by decide⟩,
    C8_expected_is_floor ⟨2025, 6, 15, 3600⟩
      (by decide) (by decide) (by decide) (by decide) (by decide)⟩

/-! C6 — `Task.load` on a missing task, and the fuzzy suggestions. -/

lemma seqRatio_of_matchingSize (a b : List Char) (m t : Nat)
    (hm : matchingSize a b (a.length + b.length + 1) 0 a.length 0 b.length = m)
    (ht : a.length + b.length = t) :
    seqRatio a b = calculateRatio m t := by rw [seqRatio, hm, ht]

lemma quickRatio_of_counts (a b : List Char) (m t : Nat)
    (hm : ((a ++ b).dedup.map (fun c => min (countOcc a c) (countOcc b c))).sum = m)
    (ht : a.length + b.length = t) :
    quickRatio a b = calculateRatio m t := by rw [quickRatio, hm, ht]

lemma realQuickRatio_of_lengths (a b : List Char) (m t : Nat)
    (hm : min a.length b.length = m) (ht : a.length + b.length = t) :
    realQuickRatio a b = calculateRatio m t := by rw [realQuickRatio, hm, ht]

lemma ratio_pushups : seqRatio "pushups".toList "pushup".toList = calculateRatio 6 13 :=
  seqRatio_of_matchingSize _ _ _ _ (by decide) (by decide)

lemma ratio_pullups : seqRatio "pullups".toList "pushup".toList = calculateRatio 4 13 :=
  seqRatio_of_matchingSize _ _ _ _ (by decide) (by decide)

lemma ratio_plank : seqRatio "plank".toList "pushup".toList = calculateRatio 1 11 :=
  seqRatio_of_matchingSize _ _ _ _ (by decide) (by decide)

lemma quick_pushups : quickRatio "pushups".toList "pushup".toList = calculateRatio 6 13 :=
  quickRatio_of_counts _ _ _ _ (by decide) (by decide)

lemma quick_pullups : quickRatio "pullups".toList "pushup".toList = calculateRatio 5 13 :=
  quickRatio_of_counts _ _ _ _ (by decide) (by decide)

lemma quick_plank : quickRatio "plank".toList "pushup".toList = calculateRatio 1 11 :=
  quickRatio_of_counts _ _ _ _ (by decide) (by decide)

lemma rquick_pushups :
    realQuickRatio "pushups".toList "pushup".toList = calculateRatio 6 13 :=
  realQuickRatio_of_lengths _ _ _ _ (by decide) (by decide)

lemma rquick_pullups :
    realQuickRatio "pullups".toList "pushup".toList = calculateRatio 6 13 :=
  realQuickRatio_of_lengths _ _ _ _ (by decide) (by decide)

lemma rquick_plank :
    realQuickRatio "plank".toList "pushup".toList = calculateRatio 5 11 :=
  realQuickRatio_of_lengths _ _ _ _ (by decide) (by decide)

/-- Evaluation of `get_close_matches("pushup", ["pushups", "pullups",
"plank"], n=3, cutoff=0.6)`: `"pushups"` scores 12/13 and `"pullups"`
8/13, both at least 0.6, while `"plank"` is filtered out by
`quick_ratio` (2/11); the result is sorted by decreasing score. -/
lemma getCloseMatches_pushup :
    getCloseMatches "pushup" ["pushups", "pullups", "plank"] 3 (6 / 10)
      = ["pushups", "pullups"] := by
  simp only [getCloseMatches, List.filterMap_cons, List.filterMap_nil,
    ratio_pushups, ratio_pullups, ratio_plank, quick_pushups, quick_pullups,
    quick_plank, rquick_pushups, rquick_pullups, rquick_plank, calculateRatio]
  norm_num [sortPairsDesc, insertDesc, pairGe, List.take, List.map]

lemma getCloseMatches_length_le (w : String) (ps : List String) (n : Nat) (c : ℚ) :
    (getCloseMatches w ps n c).length ≤ n := by
  simp only [getCloseMatches, List.length_map, List.length_take]
  omega

/-- The store holding exactly the tasks `pushups`, `pullups` and
`plank`. -/
def pushupStore : FS :=
  [("pushups", [Row.header]), ("pullups", [Row.header]), ("plank", [Row.header])]

/-- C6: loading a missing task fails with `TaskNotFoundError` carrying
the requested name and the fuzzy matches computed by
`difflib.get_close_matches` over the existing task names with `n = 3`
and `cutoff = 0.6` (hence never more than 3 suggestions); on the store
`{pushups, pullups, plank}` the query `"pushup"` yields the suggestions
`["pushups", "pullups"]`, which include `"pushups"`. -/
theorem C6_load_missing_task_suggestions :
    (∀ (fs : FS) (name : String), fsLookup fs name = none →
      Task.load fs name
          = .error ⟨name, getCloseMatches name (fsStems fs) 3 (6 / 10)⟩ ∧
        (getCloseMatches name (fsStems fs) 3 (6 / 10)).length ≤ 3) ∧
    Task.load pushupStore "pushup" = .error ⟨"pushup", ["pushups", "pullups"]⟩ ∧
    "pushups" ∈ (["pushups", "pullups"] : List String) := by
  refine ⟨?_, ?_, by simp⟩
  · intro fs name h
    exact ⟨by rw [Task.load, h], getCloseMatches_length_le name (fsStems fs) 3 (6 / 10)⟩
  · have h : fsLookup pushupStore "pushup" = none := by decide
    have hst : fsStems pushupStore = ["pushups", "pullups", "plank"] := rfl
    rw [Task.load, h, hst, getCloseMatches_pushup]

/-- Witness for the general part of C6 at the concrete store. -/
theorem C6_load_missing_task_suggestions_witness :
    fsLookup pushupStore "pushup" = none ∧
    (Task.load pushupStore "pushup"
        = .error ⟨"pushup", getCloseMatches "pushup" (fsStems pushupStore) 3 (6 / 10)⟩ ∧
      (getCloseMatches "pushup" (fsStems pushupStore) 3 (6 / 10)).length ≤ 3) :=
  ⟨by decide, C6_load_missing_task_suggestions.1 pushupStore "pushup" (by decide)⟩

end TenThousand
